import Mathlib

/-!
# Verification of the application-review-service orchestration core

Shallow embedding of the service's coordination logic:

* `retrieve_one_batch_from_db` — the batch-claim loop of
  `app/services/database_consumer.py` (`DatabaseConsumer.retrieve_one_batch_from_db`);
* `restore_sent` — `app/services/database_writer.py` (`DatabaseWriter.restore_sent`);
* `process_message` / `refill_queue` — the CareerDocs response consumer
  (`app/services/career_docs_consumer.py`) and the publisher's refill loop
  (`app/services/career_docs_publisher.py`);
* the dispatch side — `app/core/appliers_config.py`,
  `app/services/generic_publisher.py`,
  `app/application/use_cases/submit_applications.py`,
  `app/infrastructure/repositories/mongo_user_applications_repository.py`,
  `app/domain/value_objects/job_portal.py`.

MongoDB collections are modelled as Lean lists of documents in a stable
order; `find_one`/`update_one` act on the first document matching the
filter, and `modified_count > 0` is modelled as "the update actually
changed the document", matching MongoDB semantics.  JSON blobs that the
Python code only passes through (after its `_ensure_dict` normalisation)
are modelled as flat string-to-string association lists with unique keys.
-/

namespace ARS

/-- A JSON object after `_ensure_dict` normalisation, at the granularity the
orchestration code inspects it: a flat association list (keys unique). -/
abbrev JobDict := List (String × String)

/-- `d.get(k)` on a Python dict. -/
def dictGet (d : JobDict) (k : String) : Option String :=
  (d.find? (fun kv => kv.1 = k)).map (fun kv => kv.2)

/-- Python `d1.update(d2)`: values of keys present in `d2` are overwritten,
keys only in `d2` are appended, `d1`'s key order is kept. -/
def dictUpdate (d1 d2 : JobDict) : JobDict :=
  d1.map (fun kv =>
    match dictGet d2 kv.1 with
    | some v => (kv.1, v)
    | none => kv)
  ++ d2.filter (fun kv => (dictGet d1 kv.1).isNone)

/-- One element of a `pending_batches` document's `jobs` array, after the
`_ensure_dict` pass of `retrieve_one_batch_from_db`: either a dictionary
(`good`) or some other JSON value (`bad`, rejected by the
`all(isinstance(job, dict) ...)` check). -/
inductive JobItem
  | good (j : JobDict)
  | bad
deriving DecidableEq

/-- The `jobs` field of a `pending_batches` document.  `missing` covers an
absent or falsy (`None`) field; `notList` a present truthy non-list value;
`items` an actual array. -/
inductive JobsField
  | missing
  | notList
  | items (l : List JobItem)
deriving DecidableEq

/-- A document of the `jobs_to_apply_per_user` collection (the spec's
`pending_batches`).  `user_id = 0` models a falsy/absent user id.
`status_failed` models `status == "failed"`. -/
structure BatchDoc where
  id : String
  user_id : Nat
  jobs : JobsField
  sent : Bool
  retries_left : Nat
  status_failed : Bool
  failed_at : Option Nat
deriving DecidableEq

/-- The structural validation of `retrieve_one_batch_from_db` (source lines
51-68): truthy `user_id`, truthy `jobs` field that is a list whose every
element is (or parses to) a dict.  An empty list is falsy in Python, so it
fails the first check. -/
def validBatchDoc (d : BatchDoc) : Bool :=
  d.user_id != 0 &&
    (match d.jobs with
     | JobsField.items l =>
         !l.isEmpty && l.all (fun i =>
           match i with
           | JobItem.good _ => true
           | JobItem.bad => false)
     | _ => false)

/-- The parsed jobs of a batch whose `jobs` field passed validation. -/
def goodJobs : JobsField → List JobDict
  | JobsField.items l =>
      l.filterMap (fun i =>
        match i with
        | JobItem.good j => some j
        | JobItem.bad => none)
  | _ => []

/-- `DatabaseConsumer.retrieve_one_batch_from_db` (database_consumer.py,
lines 24-70).  The source repeatedly runs `find_one({"sent": False})`,
immediately runs a separate `update_one` setting `sent: True` on the found
document, and then validates its structure, skipping invalid documents.
`find_one` is modelled as "first matching document in list order"; since
every visited document is marked `sent` before the next `find_one`, the
loop is a single left-to-right pass.  Returns the updated collection and
`some (user_id, jobs)` for the first valid claimed document, `none` when no
`sent=false` document yields a valid batch. -/
def retrieve_one_batch_from_db : List BatchDoc → List BatchDoc × Option (Nat × List JobDict)
  | [] => ([], none)
  | d :: rest =>
    if d.sent then
      let r := retrieve_one_batch_from_db rest
      (d :: r.1, r.2)
    else
      let d' := { d with sent := true }
      if validBatchDoc d' then
        (d' :: rest, some (d'.user_id, goodJobs d'.jobs))
      else
        let r := retrieve_one_batch_from_db rest
        (d' :: r.1, r.2)

/-- `update_one(filter, update)` on a list-modelled collection: apply `f` to
the first document satisfying `p`; the returned flag models
`modified_count > 0`, i.e. the document actually changed. -/
def updateFirstWhere (p : BatchDoc → Bool) (f : BatchDoc → BatchDoc) :
    List BatchDoc → List BatchDoc × Bool
  | [] => ([], false)
  | d :: rest =>
    if p d then ((f d) :: rest, decide (f d ≠ d))
    else
      let r := updateFirstWhere p f rest
      (d :: r.1, r.2)

/-- `DatabaseWriter.restore_sent` (database_writer.py, lines 18-55): restore
`sent=false` where `_id = mongo_id AND retries_left > 0`; if that update
modified nothing, mark the document `status=failed, failed_at=now`.
`now` stands for `datetime.now(timezone.utc)`. -/
def restore_sent (mongoId : String) (docs : List BatchDoc) (now : Nat) : List BatchDoc :=
  let r1 := updateFirstWhere
    (fun d => d.id == mongoId && decide (0 < d.retries_left))
    (fun d => { d with sent := false }) docs
  if r1.2 then r1.1
  else
    (updateFirstWhere (fun d => d.id == mongoId)
      (fun d => { d with status_failed := true, failed_at := some now }) r1.1).1

/-! ## Properties of the batch-claim loop -/

theorem validBatchDoc_set_sent (d : BatchDoc) (b : Bool) :
    validBatchDoc { d with sent := b } = validBatchDoc d := rfl

/-- The claim loop leaves every field except `sent` untouched: any projection
that ignores `sent` is preserved documentwise. -/
theorem retrieve_map_eq {α : Type} (f : BatchDoc → α)
    (hf : ∀ d : BatchDoc, f { d with sent := true } = f d) :
    ∀ docs : List BatchDoc,
      (retrieve_one_batch_from_db docs).1.map f = docs.map f := by
  intro docs
  induction docs with
  | nil => rfl
  | cons d rest ih =>
    by_cases hs : d.sent
    · simp [retrieve_one_batch_from_db, hs, ih]
    · by_cases hv : validBatchDoc { d with sent := true }
      · simp [retrieve_one_batch_from_db, hs, hv, hf]
      · simp [retrieve_one_batch_from_db, hs, hv, hf, ih]

/-- When every document is already `sent=true`, the claim loop is the
identity and returns `none`. -/
theorem retrieve_all_sent (docs : List BatchDoc)
    (h : ∀ d ∈ docs, d.sent = true) :
    retrieve_one_batch_from_db docs = (docs, none) := by
  induction docs with
  | nil => rfl
  | cons d rest ih =>
    have hd : d.sent = true := h d (List.mem_cons_self d rest)
    have hrest : ∀ e ∈ rest, e.sent = true := fun e he => h e (List.mem_cons_of_mem d he)
    simp [retrieve_one_batch_from_db, hd, ih hrest]

/-- A successful claim comes from an unsent, structurally valid document of
the collection; that document ends up in the new collection with `sent=true`
and the returned pair is its `(user_id, jobs)`. -/
theorem retrieve_some_spec (docs : List BatchDoc) (uid : Nat) (jobs : List JobDict)
    (h : (retrieve_one_batch_from_db docs).2 = some (uid, jobs)) :
    ∃ d ∈ docs, d.sent = false ∧ validBatchDoc d = true ∧
      uid = d.user_id ∧ jobs = goodJobs d.jobs ∧
      { d with sent := true } ∈ (retrieve_one_batch_from_db docs).1 := by
  induction docs with
  | nil => simp [retrieve_one_batch_from_db] at h
  | cons d rest ih =>
    by_cases hs : d.sent
    · simp only [retrieve_one_batch_from_db, hs, if_true] at h
      obtain ⟨e, he, hrest⟩ := ih h
      exact ⟨e, List.mem_cons_of_mem d he, hrest.1, hrest.2.1, hrest.2.2.1, hrest.2.2.2.1,
        by simpa [retrieve_one_batch_from_db, hs] using List.mem_cons_of_mem d hrest.2.2.2.2⟩
    · by_cases hv : validBatchDoc { d with sent := true }
      · simp only [retrieve_one_batch_from_db, hs, if_false, hv, if_true,
          Bool.false_eq_true] at h
        injection h with h
        obtain ⟨h1, h2⟩ := Prod.mk.inj h
        subst h1; subst h2
        refine ⟨d, List.mem_cons_self d rest, by simpa using hs, ?_, rfl, rfl, ?_⟩
        · rw [validBatchDoc_set_sent] at hv; exact hv
        · simp [retrieve_one_batch_from_db, hs, hv]
      · simp only [retrieve_one_batch_from_db, hs, if_false, hv, Bool.false_eq_true] at h
        obtain ⟨e, he, hrest⟩ := ih h
        refine ⟨e, List.mem_cons_of_mem d he, hrest.1, hrest.2.1, hrest.2.2.1, hrest.2.2.2.1, ?_⟩
        simp only [retrieve_one_batch_from_db, hs, if_false, hv, Bool.false_eq_true]
        simp [List.mem_cons_of_mem _ hrest.2.2.2.2]

/-- When every unsent document is structurally invalid, the loop claims
(`sent:=true`) each of them, returns nothing, and changes nothing else. -/
theorem retrieve_all_invalid (docs : List BatchDoc)
    (h : ∀ d ∈ docs, d.sent = false → validBatchDoc d = false) :
    retrieve_one_batch_from_db docs =
      (docs.map (fun d => if d.sent then d else { d with sent := true }), none) := by
  induction docs with
  | nil => rfl
  | cons d rest ih =>
    have hrest : ∀ e ∈ rest, e.sent = false → validBatchDoc e = false :=
      fun e he => h e (List.mem_cons_of_mem d he)
    by_cases hs : d.sent
    · simp [retrieve_one_batch_from_db, hs, ih hrest]
    · have hv : validBatchDoc { d with sent := true } = false := by
        rw [validBatchDoc_set_sent]
        exact h d (List.mem_cons_self d rest) (by simpa using hs)
      simp [retrieve_one_batch_from_db, hs, hv, ih hrest]

/-! ## Response consumer (`career_docs_consumer.py`) and refill loop
(`career_docs_publisher.py`) -/

/-- A JSON value appearing in a CareerDocs response message. -/
inductive MVal
  | vbool (b : Bool)
  | vnum (n : Nat)
  | vstr (s : String)
  | vdict (d : JobDict)
deriving DecidableEq

/-- A deserialized CareerDocs response message: the key/value pairs of the
JSON object in iteration order. -/
abbrev Message := List (String × MVal)

/-- Python exceptions raised by the consumer/publisher path.
`attributeError` models an `AttributeError` from attribute access on a value
of the wrong type; `typeError` a `TypeError` from calling a function with
the wrong arity. -/
inductive PyError
  | invalidRequest (msg : String)
  | databaseOperation (msg : String)
  | attributeError
  | typeError
deriving DecidableEq

/-- One entry of a `career_docs_responses` document's `content` map:
the merged job data plus the `sent` flag added on write. -/
structure RespEntry where
  data : JobDict
  sent : Bool
deriving DecidableEq

/-- A `career_docs_responses` document (one per user). -/
structure RespDoc where
  user_id : Nat
  content : List (String × RespEntry)
deriving DecidableEq

/-- The state the consumer and refill loop act on: the Redis correlation
store (correlation id to job snapshot, stored JSON parsed), the two Mongo
collections, and the observed depth of the `career_docs_queue`. -/
structure CoreState where
  redis : List (String × JobDict)
  responses : List RespDoc
  batches : List BatchDoc
  queueSize : Nat
deriving DecidableEq

/-- Redis `GET`. -/
def redisGet (store : List (String × JobDict)) (k : String) : Option JobDict :=
  (store.find? (fun kv => kv.1 = k)).map (fun kv => kv.2)

/-- `message.get(k)`. -/
def msgGet (msg : Message) (k : String) : Option MVal :=
  (msg.find? (fun kv => kv.1 = k)).map (fun kv => kv.2)

/-- The keys excluded from correlation-id processing
(`if correlation_id not in ["user_id", "mongo_id"]`). -/
def excludedKeys : List String := ["user_id", "mongo_id"]

/-- `message.get("user_id")` with Python truthiness: `some uid` only for a
truthy numeric id.  (User ids are numeric throughout the repository;
a missing, zero, empty or false value is falsy.) -/
def extractUserId (msg : Message) : Option Nat :=
  match msgGet msg "user_id" with
  | some (MVal.vnum n) => if n = 0 then none else some n
  | _ => none

/-- `CareerDocsConsumer._retrieve_content_from_redis` (career_docs_consumer.py,
lines 40-69): every key other than `user_id`/`mongo_id` is treated as a
correlation id and looked up in Redis; a missing id raises
`InvalidRequestError` immediately; otherwise the message's job data is
merged with the stored snapshot (`job_data.update(original_data)`).  The
interpolated id is omitted from the modelled error string.  A non-dict job
value with a found snapshot would raise `AttributeError` at `.update`. -/
def retrieve_content_from_redis (msg : Message) (store : List (String × JobDict)) :
    Except PyError (List (String × JobDict)) :=
  match msg with
  | [] => Except.ok []
  | (k, v) :: rest =>
    if k ∈ excludedKeys then retrieve_content_from_redis rest store
    else
      match redisGet store k with
      | none => Except.error (PyError.invalidRequest
          "Invalid correlation ID in response from career_docs")
      | some orig =>
        match v with
        | MVal.vdict jd =>
          match retrieve_content_from_redis rest store with
          | Except.error e => Except.error e
          | Except.ok c => Except.ok ((k, dictUpdate jd orig) :: c)
        | _ => Except.error PyError.attributeError

/-- Replace the value at key `k` in a content map, or append it. -/
def setContentKey (content : List (String × RespEntry)) (k : String) (e : RespEntry) :
    List (String × RespEntry) :=
  if content.any (fun kv => kv.1 = k) then
    content.map (fun kv => if kv.1 = k then (k, e) else kv)
  else content ++ [(k, e)]

/-- `CareerDocsConsumer._update_career_docs_responses` (career_docs_consumer.py,
lines 72-120): one upsert keyed by `user_id`, `$setOnInsert {user_id}`, and
`$set content.<id>` for every entry with `sent: False` added.  When the
document exists but the update modifies nothing (`modified_count == 0` and
no upsert), the source raises `DatabaseOperationError`; the outer handler
rewraps every failure into `DatabaseOperationError`. -/
def update_career_docs_responses (uid : Nat) (content : List (String × JobDict))
    (responses : List RespDoc) : Except PyError (List RespDoc) :=
  let entries := content.map (fun kv => (kv.1, RespEntry.mk kv.2 false))
  match responses.find? (fun doc => doc.user_id = uid) with
  | none =>
      Except.ok (responses ++ [RespDoc.mk uid entries])
  | some doc =>
      let newContent := entries.foldl (fun c kv => setContentKey c kv.1 kv.2) doc.content
      if newContent = doc.content then
        Except.error (PyError.databaseOperation
          "Error while storing career_docs response in MongoDB")
      else
        Except.ok (responses.map (fun d =>
          if d.user_id = uid then RespDoc.mk d.user_id newContent else d))

/-- `CareerDocsPublisher.MAX_QUEUE_SIZE` (career_docs_publisher.py, line 16). -/
def MAX_QUEUE_SIZE : Nat := 100

/-- `CareerDocsPublisher.refill_queue` (career_docs_publisher.py, lines
111-126): read the queue size; while it is below `MAX_QUEUE_SIZE`, claim one
batch (`retrieve_one_batch_from_db`) and publish it.  The source passes the
`(user_id, jobs)` TUPLE returned by `retrieve_one_batch_from_db` straight to
`publish_applications`, which immediately reads `.style` (then `.jobs`,
`.cv_id`, ...) expecting a `JobsToApplyInfo` object; on a tuple this raises
`AttributeError`.  So whenever a batch is actually claimed the loop dies on
its first iteration: the claim's `sent=true` write has already hit the
store, nothing is published, and the error propagates.  The result pairs
the state as mutated so far with the raised exception, if any. -/
def refill_queue (st : CoreState) : CoreState × Option PyError :=
  if st.queueSize < MAX_QUEUE_SIZE then
    match retrieve_one_batch_from_db st.batches with
    | (b, none) => ({ st with batches := b }, none)
    | (b, some _) => ({ st with batches := b }, some PyError.attributeError)
  else (st, none)

/-- `CareerDocsConsumer.process_message` (career_docs_consumer.py, lines
127-149): require a truthy `user_id`; rebuild the content from Redis; upsert
it into `career_docs_responses`; if a `mongo_id` key is present (`if not
mongo_id is None`) call `_remove_processed_entry`; finally trigger
`refill_queue`.  The message's `success` field is never read.
`_remove_processed_entry` (lines 122-124) never retires the batch: its first
statement is `logger.log(f"removing processed entity with id: {mongo_id}")`,
and loguru's `log(level, message)` called with a single argument raises
`TypeError` before the delete — and the delete itself
(`DatabaseCleaner.clean_from_db`, an un-awaited
`delete_one({"_id": <raw string>})`) could never match the collection's
`ObjectId` ids anyway.  So a present `mongo_id` aborts processing after the
upsert with `TypeError`, batches untouched, no refill.  Returns the state as
mutated when the raised exception (if any) escapes. -/
def process_message (msg : Message) (st : CoreState) : CoreState × Option PyError :=
  match extractUserId msg with
  | none => (st, some (PyError.invalidRequest "Missing user_id in response from career_docs"))
  | some uid =>
    match retrieve_content_from_redis msg st.redis with
    | Except.error e => (st, some e)
    | Except.ok content =>
      match update_career_docs_responses uid content st.responses with
      | Except.error e => (st, some e)
      | Except.ok responses2 =>
        let st1 := { st with responses := responses2 }
        match msgGet msg "mongo_id" with
        | some _ => (st1, some PyError.typeError)
        | none => refill_queue st1

/-! ## Dispatch: appliers config, generic publisher, submit use cases -/

/-- `PROVIDER_PORTALS` (appliers_config.py, lines 4-7). -/
def PROVIDER_PORTALS : List String :=
  ["workday", "greenhouse", "smartrecruiters", "dice", "applytojob",
   "lever", "workable", "bamboohr", "breezyhr", "infojobs", "infojobs_net", "totaljobs"]

/-- One application entry as the dispatch path reads it: the `portal` field
(`value.get('portal')`), the `sent` flag (`app_data.get("sent")`, compared
with `is False` / `is True`), and the `timestamp` field written on marking.
Other fields are never inspected by this path. -/
structure AppData where
  portal : Option String
  sent : Option Bool
  timestamp : Option Nat
deriving DecidableEq

/-- A value of an `assembled_applications` content map: a dict or some other
JSON value (rejected by the `isinstance(value, dict)` checks). -/
inductive CVal
  | dict (a : AppData)
  | nondict
deriving DecidableEq

/-- A `career_docs_responses` document as the dispatch path reads it. -/
structure UserDoc where
  user_id : String
  content : List (String × CVal)
deriving DecidableEq

/-- `value.get('portal') in PROVIDER_PORTALS` under `isinstance(value, dict)`:
the retention test of `process_for_providers` (appliers_config.py, line 52). -/
def providersKeeps : CVal → Bool
  | CVal.dict a =>
      match a.portal with
      | some p => PROVIDER_PORTALS.contains p
      | none => false
  | CVal.nondict => false

/-- `isinstance(value, dict) and value.get('portal') not in PROVIDER_PORTALS`:
the retention test of `process_for_skyvern` (appliers_config.py, line 30). -/
def skyvernKeeps : CVal → Bool
  | CVal.dict a =>
      match a.portal with
      | some p => !PROVIDER_PORTALS.contains p
      | none => true
  | CVal.nondict => false

/-- `process_for_skyvern` (appliers_config.py, lines 15-34): filter the
content; return `none` when nothing survives (the publisher then skips the
queue). -/
def process_for_skyvern (uid : String) (content : List (String × CVal)) :
    Option (String × List (String × CVal)) :=
  let filtered := content.filter (fun kv => skyvernKeeps kv.2)
  if filtered.isEmpty then none else some (uid, filtered)

/-- `process_for_providers` (appliers_config.py, lines 37-56). -/
def process_for_providers (uid : String) (content : List (String × CVal)) :
    Option (String × List (String × CVal)) :=
  let filtered := content.filter (fun kv => providersKeeps kv.2)
  if filtered.isEmpty then none else some (uid, filtered)

/-- The applier-target toggles of `_build_appliers_config`
(appliers_config.py, lines 59-89): `ENABLE_SKYVERN_APPLIER` (default false)
and `ENABLE_PROVIDERS_APPLIER` (default true). -/
structure AppliersConfig where
  skyvernEnabled : Bool
  providersEnabled : Bool
deriving DecidableEq

/-- One entry of the `APPLIERS` map: queue name and the single-application
retention test of its process function. -/
structure Applier where
  queue_name : String
  keeps : CVal → Bool

/-- The `APPLIERS` map in insertion (iteration) order: skyvern first when
enabled, then providers when enabled. -/
def appliersList (cfg : AppliersConfig) : List Applier :=
  (if cfg.skyvernEnabled then [Applier.mk "skyvern_queue" skyvernKeeps] else []) ++
  (if cfg.providersEnabled then [Applier.mk "providers_queue" providersKeeps] else [])

/-- A message published to an applier queue:
`{ user_id, content: { app_id: value } }` on `queue`. -/
structure PubMsg where
  queue : String
  user_id : String
  app_id : String
  value : CVal
deriving DecidableEq

/-- The inner loop of `GenericPublisher.publish_data_to_microservices` for
one application: build the single-application document and offer it to every
configured applier; a `None` from the process function skips that queue. -/
def publishOne (cfg : AppliersConfig) (uid : String) (k : String) (v : CVal) : List PubMsg :=
  (appliersList cfg).filterMap (fun ap =>
    if ap.keeps v then some (PubMsg.mk ap.queue_name uid k v) else none)

/-- `GenericPublisher.publish_data_to_microservices` (generic_publisher.py,
lines 10-42): one message per surviving (application, applier) pair, in
content order. -/
def publish_data_to_microservices (cfg : AppliersConfig) (uid : String) :
    List (String × CVal) → List PubMsg
  | [] => []
  | (k, v) :: rest => publishOne cfg uid k v ++ publish_data_to_microservices cfg uid rest

/-- The pending-application selection of `SubmitAllApplicationsUseCase.execute`
(submit_applications.py, lines 53-58): keys whose value is a dict with
`sent is False`. -/
def pendingIds (content : List (String × CVal)) : List String :=
  content.filterMap (fun kv =>
    match kv.2 with
    | CVal.dict a => if a.sent = some false then some kv.1 else none
    | CVal.nondict => none)

/-- `$set content.<id>.sent = true, content.<id>.timestamp = now` on a
content value. -/
def setSentTrue (now : Nat) : CVal → CVal
  | CVal.dict a => CVal.dict { a with sent := some true, timestamp := some now }
  | CVal.nondict => CVal.nondict

/-- One `update_one` of `mark_applications_as_sent`
(mongo_user_applications_repository.py, lines 156-167): set `sent`/
`timestamp` on the entry with key `id`; the returned flag models
`modified_count > 0`. -/
def markOne (content : List (String × CVal)) (id : String) (now : Nat) :
    List (String × CVal) × Bool :=
  if content.any (fun kv => kv.1 = id) then
    let c2 := content.map (fun kv => if kv.1 = id then (kv.1, setSentTrue now kv.2) else kv)
    (c2, decide (c2 ≠ content))
  else (content, false)

/-- `MongoUserApplicationsRepository.mark_applications_as_sent`
(mongo_user_applications_repository.py, lines 148-182): one conditional
update per id, counting the modified ones. -/
def mark_applications_as_sent (content : List (String × CVal)) (ids : List String)
    (now : Nat) : Nat × List (String × CVal) :=
  match ids with
  | [] => (0, content)
  | id :: rest =>
    let r := markOne content id now
    let r2 := mark_applications_as_sent r.1 rest now
    ((if r.2 then 1 else 0) + r2.1, r2.2)

/-- Use-case level errors of the submit path. -/
inductive UCError
  | userNotFound
  | applicationNotFound
deriving DecidableEq

/-- `SubmitAllApplicationsUseCase.execute` (submit_applications.py, lines
36-84): load the user document; collect the pending ids; if none, report
zero; otherwise publish the WHOLE document to the microservices and then
mark exactly the pending ids as sent.  Returns the report message and
count, the published messages, and the document after the marking. -/
def submit_all_applications (cfg : AppliersConfig) (doc? : Option UserDoc) (now : Nat) :
    Except UCError (String × Nat × List PubMsg × UserDoc) :=
  match doc? with
  | none => Except.error UCError.userNotFound
  | some doc =>
    let pending := pendingIds doc.content
    if pending.isEmpty then
      Except.ok ("No pending applications to submit", 0, [], doc)
    else
      let pubs := publish_data_to_microservices cfg doc.user_id doc.content
      let r := mark_applications_as_sent doc.content pending now
      Except.ok ("Career documents processed successfully", r.1, pubs,
        UserDoc.mk doc.user_id r.2)

/-- `content.get(app_id)`-style first lookup on a content map. -/
def contentGet (content : List (String × CVal)) (k : String) : Option CVal :=
  (content.find? (fun kv => kv.1 = k)).map (fun kv => kv.2)

/-- The per-id filter of `SubmitSelectedApplicationsUseCase.execute`
(submit_applications.py, lines 128-133): the id must resolve to a dict entry
with `sent is False`. -/
def selectedFilter (content : List (String × CVal)) (app_id : String) :
    Option (String × CVal) :=
  match contentGet content app_id with
  | some (CVal.dict a) =>
      if a.sent = some false then some (app_id, CVal.dict a) else none
  | _ => none

/-- `SubmitSelectedApplicationsUseCase.execute` (submit_applications.py,
lines 102-166): keep the requested ids that resolve to an unsent dict entry;
error when none do; otherwise publish the filtered document and mark those
ids as sent. -/
def submit_selected_applications (cfg : AppliersConfig) (doc? : Option UserDoc)
    (ids : List String) (now : Nat) :
    Except UCError (String × Nat × List PubMsg × UserDoc) :=
  match doc? with
  | none => Except.error UCError.userNotFound
  | some doc =>
    let filtered := ids.filterMap (selectedFilter doc.content)
    if filtered.isEmpty then Except.error UCError.applicationNotFound
    else
      let pubs := publish_data_to_microservices cfg doc.user_id filtered
      let r := mark_applications_as_sent doc.content (filtered.map (fun kv => kv.1)) now
      Except.ok ("Selected applications processed successfully", r.1, pubs,
        UserDoc.mk doc.user_id r.2)

/-! ## JobPortal value object (`job_portal.py`) -/

/-- `NATIVE_PROVIDER_PORTALS` (job_portal.py, lines 29-42), the set of
`PortalType` enum values with native provider support. -/
def NATIVE_PROVIDER_PORTALS : List String :=
  ["workday", "greenhouse", "smartrecruiters", "dice", "applytojob",
   "lever", "workable", "bamboohr", "breezyhr", "infojobs", "infojobs_net", "totaljobs"]

/-- `JobPortal.get_applier_queue` (job_portal.py, lines 81-85), as a function
of the portal name (the method reads only `self.name`). -/
def get_applier_queue (name : String) : String :=
  if NATIVE_PROVIDER_PORTALS.contains name then "providers_queue" else "skyvern_queue"

/-! ## Helper lemmas for the dispatch path -/

theorem skyvernKeeps_dict (a : AppData) :
    skyvernKeeps (CVal.dict a) = !providersKeeps (CVal.dict a) := by
  cases ha : a.portal <;> simp [skyvernKeeps, providersKeeps, ha]

theorem publishOne_both_dict (uid k : String) (a : AppData) :
    publishOne (AppliersConfig.mk true true) uid k (CVal.dict a) =
      [PubMsg.mk (if providersKeeps (CVal.dict a) then "providers_queue" else "skyvern_queue")
        uid k (CVal.dict a)] := by
  cases h : providersKeeps (CVal.dict a) <;>
    simp [publishOne, appliersList, skyvernKeeps_dict, h]

theorem mem_publishOne_app_id (cfg : AppliersConfig) (uid k : String) (v : CVal)
    (m : PubMsg) (hm : m ∈ publishOne cfg uid k v) : m.app_id = k := by
  obtain ⟨ap, _, heq⟩ := List.mem_filterMap.mp hm
  by_cases hk : ap.keeps v
  · simp only [hk, if_true] at heq
    injection heq with heq
    subst heq; rfl
  · simp [hk] at heq

theorem mem_publish_app_id (cfg : AppliersConfig) (uid : String)
    (content : List (String × CVal)) (m : PubMsg)
    (hm : m ∈ publish_data_to_microservices cfg uid content) :
    m.app_id ∈ content.map Prod.fst := by
  induction content with
  | nil => simp [publish_data_to_microservices] at hm
  | cons kv rest ih =>
    obtain ⟨k, v⟩ := kv
    simp only [publish_data_to_microservices, List.mem_append] at hm
    rcases hm with hm | hm
    · simp [mem_publishOne_app_id cfg uid k v m hm]
    · simp [ih hm]

/-! ## C6 — portal fan-out with both appliers enabled -/

/-- C6: with both applier targets enabled, every dict content entry of a
published document yields exactly one message: on `providers_queue` when its
portal is in the closed `PROVIDER_PORTALS` set, on `skyvern_queue` for any
other portal value — never both. -/
theorem c6_fanout_routing (uid : String) (content : List (String × CVal))
    (k : String) (a : AppData)
    (hnd : (content.map Prod.fst).Nodup) (hmem : (k, CVal.dict a) ∈ content) :
    (publish_data_to_microservices (AppliersConfig.mk true true) uid content).filter
        (fun m => m.app_id = k) =
      [PubMsg.mk (if providersKeeps (CVal.dict a) then "providers_queue" else "skyvern_queue")
        uid k (CVal.dict a)] := by
  induction content with
  | nil => simp at hmem
  | cons kv rest ih =>
    obtain ⟨k', v'⟩ := kv
    simp only [List.map_cons, List.nodup_cons] at hnd
    rcases List.mem_cons.mp hmem with hhd | htl
    · obtain ⟨hk, hv⟩ := Prod.mk.inj hhd
      subst hk; subst hv
      have htail : (publish_data_to_microservices (AppliersConfig.mk true true) uid rest).filter
          (fun m => m.app_id = k) = [] := by
        rw [List.filter_eq_nil_iff]
        intro m hm
        have h2 := mem_publish_app_id _ _ _ _ hm
        simp only [decide_eq_true_eq]
        intro hcontra
        exact hnd.1 (hcontra ▸ h2)
      simp only [publish_data_to_microservices, List.filter_append, htail,
        List.append_nil, publishOne_both_dict]
      simp
    · have hne : k ≠ k' := by
        intro hcontra
        exact hnd.1 (hcontra ▸ (List.mem_map_of_mem Prod.fst htl))
      have hhead : (publishOne (AppliersConfig.mk true true) uid k' v').filter
          (fun m => m.app_id = k) = [] := by
        rw [List.filter_eq_nil_iff]
        intro m hm
        have h2 := mem_publishOne_app_id _ _ _ _ m hm
        simp only [decide_eq_true_eq]
        intro hcontra
        exact hne (hcontra ▸ h2)
      simp only [publish_data_to_microservices, List.filter_append, hhead,
        List.nil_append]
      exact ih hnd.2 htl

/-- C6 witness: a two-application document (one provider portal, one
browser-automation portal). -/
theorem c6_fanout_routing_witness :
    (publish_data_to_microservices (AppliersConfig.mk true true) "42"
        [("A", CVal.dict (AppData.mk (some "workday") (some false) none)),
         ("B", CVal.dict (AppData.mk (some "custom") (some false) none))]).filter
        (fun m => m.app_id = "B") =
      [PubMsg.mk
        (if providersKeeps (CVal.dict (AppData.mk (some "custom") (some false) none))
         then "providers_queue" else "skyvern_queue")
        "42" "B" (CVal.dict (AppData.mk (some "custom") (some false) none))] :=
  c6_fanout_routing "42" _ "B" (AppData.mk (some "custom") (some false) none)
    (by decide) (by simp)

/-! ## C10 — agreement of the two portal routing tables -/

/-- C10: the routing table of `JobPortal` (`NATIVE_PROVIDER_PORTALS`) and
the appliers' `PROVIDER_PORTALS` list agree, so `get_applier_queue` answers
`providers_queue` exactly when `process_for_providers` would retain an
application with that portal, and `skyvern_queue` exactly when
`process_for_skyvern` would retain it. -/
theorem c10_portal_tables_agree :
    (∀ p : String, p ∈ NATIVE_PROVIDER_PORTALS ↔ p ∈ PROVIDER_PORTALS)
    ∧ (∀ p : String,
        (get_applier_queue p = "providers_queue" ↔
          providersKeeps (CVal.dict (AppData.mk (some p) none none)) = true)
        ∧ (get_applier_queue p = "skyvern_queue" ↔
          skyvernKeeps (CVal.dict (AppData.mk (some p) none none)) = true)) := by
  have hl : NATIVE_PROVIDER_PORTALS = PROVIDER_PORTALS := rfl
  constructor
  · intro p; rw [hl]
  · intro p
    have hpk : providersKeeps (CVal.dict (AppData.mk (some p) none none)) =
        PROVIDER_PORTALS.contains p := rfl
    have hsk : skyvernKeeps (CVal.dict (AppData.mk (some p) none none)) =
        !PROVIDER_PORTALS.contains p := rfl
    rw [hpk, hsk]
    by_cases hc : PROVIDER_PORTALS.contains p = true
    · have hg : get_applier_queue p = "providers_queue" := by
        unfold get_applier_queue
        rw [show NATIVE_PROVIDER_PORTALS.contains p = true from hc]
        decide
      refine ⟨⟨fun _ => hc, fun _ => hg⟩, ⟨fun hq => ?_, fun hq => ?_⟩⟩
      · rw [hg] at hq; exact absurd hq (by decide)
      · rw [hc] at hq; exact absurd hq (by decide)
    · have hc2 : PROVIDER_PORTALS.contains p = false := by
        cases hb : PROVIDER_PORTALS.contains p
        · rfl
        · exact absurd hb hc
      have hg : get_applier_queue p = "skyvern_queue" := by
        unfold get_applier_queue
        rw [show NATIVE_PROVIDER_PORTALS.contains p = false from hc2]
        decide
      refine ⟨⟨fun hq => ?_, fun hq => ?_⟩, ⟨fun _ => by rw [hc2]; rfl, fun _ => hg⟩⟩
      · rw [hg] at hq; exact absurd hq (by decide)
      · rw [hc2] at hq; exact absurd hq (by decide)

/-! ## C2 — what the batch-claim operation actually does -/

/-- C2 as the spec states it: a claim selects a `sent=false` document and,
in one conditional update, sets `sent=true` AND decrements `retries_left`,
returning the claimed batch; with no unsent document it returns `none`. -/
def c2ClaimStatement : Prop :=
  ∀ docs : List BatchDoc,
    ((∃ d ∈ docs, d.sent = false) →
      ∃ i d, docs.get? i = some d ∧ d.sent = false ∧
        (retrieve_one_batch_from_db docs).1.get? i =
          some { d with sent := true, retries_left := d.retries_left - 1 } ∧
        (retrieve_one_batch_from_db docs).2 ≠ none)
    ∧ ((∀ d ∈ docs, d.sent = true) → (retrieve_one_batch_from_db docs).2 = none)

/-- A valid unsent batch with `retries_left = 3`. -/
def c2doc : BatchDoc :=
  BatchDoc.mk "b1" 42 (JobsField.items [JobItem.good [("title", "SRE")]]) false 3 false none

/-- C2 counterexample: claiming `c2doc` leaves `retries_left = 3` — the code
never decrements the retry budget (and does so in a second, separate
update, not a single find-and-modify). -/
theorem c2_counterexample : ¬ c2ClaimStatement := by
  intro h
  obtain ⟨i, d, h1, _, h3, _⟩ :=
    (h [c2doc]).1 ⟨c2doc, List.mem_singleton_self c2doc, rfl⟩
  cases i with
  | zero =>
    rw [show ([c2doc].get? 0) = some c2doc from rfl] at h1
    injection h1 with h1
    subst h1
    exact absurd h3 (by decide)
  | succ n => simp at h1

/-- C2 amended: the claim loop sets `sent=true` on visited documents but
leaves every `retries_left` unchanged; it returns `none` exactly on an
all-sent collection; and a successful claim returns the `(user_id, jobs)` of
an unsent structurally valid document now stored with `sent=true`. -/
theorem c2_claim_without_decrement (docs : List BatchDoc) :
    ((retrieve_one_batch_from_db docs).1.map BatchDoc.retries_left =
        docs.map BatchDoc.retries_left)
    ∧ ((∀ d ∈ docs, d.sent = true) → retrieve_one_batch_from_db docs = (docs, none))
    ∧ (∀ uid jobs, (retrieve_one_batch_from_db docs).2 = some (uid, jobs) →
        ∃ d ∈ docs, d.sent = false ∧ validBatchDoc d = true ∧ uid = d.user_id ∧
          jobs = goodJobs d.jobs ∧
          { d with sent := true } ∈ (retrieve_one_batch_from_db docs).1) :=
  ⟨retrieve_map_eq BatchDoc.retries_left (fun _ => rfl) docs,
   retrieve_all_sent docs,
   fun uid jobs h => retrieve_some_spec docs uid jobs h⟩

/-- C2 witness: both hypothesised components at concrete inputs. -/
theorem c2_claim_without_decrement_witness :
    retrieve_one_batch_from_db [{ c2doc with sent := true }] =
        ([{ c2doc with sent := true }], none)
    ∧ ∃ d ∈ [c2doc], d.sent = false ∧ validBatchDoc d = true ∧ (42 : Nat) = d.user_id ∧
        [[(("title" : String), ("SRE" : String))]] = goodJobs d.jobs ∧
        { d with sent := true } ∈ (retrieve_one_batch_from_db [c2doc]).1 :=
  ⟨(c2_claim_without_decrement [{ c2doc with sent := true }]).2.1 (by decide),
   (c2_claim_without_decrement [c2doc]).2.2 42 [[("title", "SRE")]] (by decide)⟩

/-! ## C9 — structurally invalid documents are claimed and silently dropped -/

/-- C9: every structurally invalid unsent document is set `sent=true` and
skipped: with only invalid unsent documents the claim returns `none`, no
field other than `sent` changes (no restore, no `status=failed`), and the
collection afterwards has nothing claimable — a second claim is a no-op. -/
theorem c9_invalid_batch_documents (docs : List BatchDoc)
    (h : ∀ d ∈ docs, d.sent = false → validBatchDoc d = false) :
    retrieve_one_batch_from_db docs =
      (docs.map (fun d => if d.sent then d else { d with sent := true }), none)
    ∧ retrieve_one_batch_from_db
        (docs.map (fun d => if d.sent then d else { d with sent := true })) =
      (docs.map (fun d => if d.sent then d else { d with sent := true }), none) := by
  refine ⟨retrieve_all_invalid docs h, retrieve_all_sent _ ?_⟩
  intro d hd
  obtain ⟨e, _, rfl⟩ := List.mem_map.mp hd
  by_cases hs : e.sent <;> simp [hs]

/-- An invalid document: falsy `user_id`. -/
def c9doc : BatchDoc := BatchDoc.mk "b2" 0 (JobsField.items [JobItem.good []]) false 1 false none

/-- C9 witness: the invalid document is claimed, never returned, and the
pool is permanently empty. -/
theorem c9_invalid_batch_documents_witness :
    retrieve_one_batch_from_db [c9doc] =
      ([c9doc].map (fun d => if d.sent then d else { d with sent := true }), none)
    ∧ retrieve_one_batch_from_db
        ([c9doc].map (fun d => if d.sent then d else { d with sent := true })) =
      ([c9doc].map (fun d => if d.sent then d else { d with sent := true }), none) :=
  c9_invalid_batch_documents [c9doc] (by decide)

/-! ## Helper lemmas for the submit use cases -/

theorem key_unique (content : List (String × CVal))
    (hnd : (content.map Prod.fst).Nodup) (k : String) (v v' : CVal)
    (h1 : (k, v) ∈ content) (h2 : (k, v') ∈ content) : v = v' := by
  induction content with
  | nil => simp at h1
  | cons kv rest ih =>
    obtain ⟨k0, v0⟩ := kv
    simp only [List.map_cons, List.nodup_cons] at hnd
    rcases List.mem_cons.mp h1 with hh1 | ht1 <;> rcases List.mem_cons.mp h2 with hh2 | ht2
    · obtain ⟨-, hv1⟩ := Prod.mk.inj hh1
      obtain ⟨-, hv2⟩ := Prod.mk.inj hh2
      rw [hv1, hv2]
    · obtain ⟨hk1, -⟩ := Prod.mk.inj hh1
      exact absurd (hk1 ▸ List.mem_map_of_mem Prod.fst ht2) hnd.1
    · obtain ⟨hk2, -⟩ := Prod.mk.inj hh2
      exact absurd (hk2 ▸ List.mem_map_of_mem Prod.fst ht1) hnd.1
    · exact ih hnd.2 ht1 ht2

theorem contentGet_of_mem_nodup (content : List (String × CVal))
    (hnd : (content.map Prod.fst).Nodup) (k : String) (v : CVal)
    (hmem : (k, v) ∈ content) : contentGet content k = some v := by
  induction content with
  | nil => simp at hmem
  | cons kv rest ih =>
    obtain ⟨k0, v0⟩ := kv
    simp only [List.map_cons, List.nodup_cons] at hnd
    rcases List.mem_cons.mp hmem with hh | ht
    · obtain ⟨hk, hv⟩ := Prod.mk.inj hh
      simp [contentGet, List.find?, hk, hv]
    · have hne : k0 ≠ k := by
        intro he
        refine hnd.1 ?_
        rw [he]
        exact List.mem_map_of_mem Prod.fst ht
      simpa [contentGet, List.find?, hne] using ih hnd.2 ht

theorem mem_pendingIds (content : List (String × CVal)) (k : String) (a : AppData)
    (hmem : (k, CVal.dict a) ∈ content) (hs : a.sent = some false) :
    k ∈ pendingIds content := by
  unfold pendingIds
  refine List.mem_filterMap.mpr ⟨(k, CVal.dict a), hmem, ?_⟩
  simp [hs]

theorem publishOne_nil (cfg : AppliersConfig) (uid k : String) (v : CVal)
    (h : ∀ ap ∈ appliersList cfg, ap.keeps v = false) :
    publishOne cfg uid k v = [] := by
  unfold publishOne
  rw [List.filterMap_eq_nil_iff]
  intro ap hap
  simp [h ap hap]

theorem mem_publish_iff (cfg : AppliersConfig) (uid : String)
    (content : List (String × CVal)) (m : PubMsg) :
    m ∈ publish_data_to_microservices cfg uid content ↔
      ∃ kv ∈ content, m ∈ publishOne cfg uid kv.1 kv.2 := by
  induction content with
  | nil => simp [publish_data_to_microservices]
  | cons kv rest ih =>
    obtain ⟨k, v⟩ := kv
    simp [publish_data_to_microservices, List.mem_append, ih]

theorem mem_publishOne_value (cfg : AppliersConfig) (uid k : String) (v : CVal)
    (m : PubMsg) (hm : m ∈ publishOne cfg uid k v) : m.value = v := by
  obtain ⟨ap, _, heq⟩ := List.mem_filterMap.mp hm
  by_cases hk : ap.keeps v
  · simp only [hk, if_true] at heq
    injection heq with heq
    subst heq; rfl
  · simp [hk] at heq

theorem setSentTrue_idem (now : Nat) (v : CVal) :
    setSentTrue now (setSentTrue now v) = setSentTrue now v := by
  cases v <;> rfl

/-- The collection shape of a single `mark_applications_as_sent` update:
with or without a matching key, the result is the pointwise map. -/
theorem markOne_fst (content : List (String × CVal)) (id : String) (now : Nat) :
    (markOne content id now).1 =
      content.map (fun kv => if kv.1 = id then (kv.1, setSentTrue now kv.2) else kv) := by
  unfold markOne
  by_cases h : content.any (fun kv => kv.1 = id)
  · simp [h]
  · simp only [h, Bool.false_eq_true, if_false]
    have hall : ∀ kv ∈ content, kv.1 ≠ id := by
      intro kv hkv he
      exact h (List.any_eq_true.mpr ⟨kv, hkv, by simp [he]⟩)
    have hmap : ∀ l : List (String × CVal), (∀ kv ∈ l, kv.1 ≠ id) →
        l = l.map (fun kv => if kv.1 = id then (kv.1, setSentTrue now kv.2) else kv) := by
      intro l hl
      induction l with
      | nil => rfl
      | cons kv rest ih =>
        rw [List.map_cons, if_neg (hl kv (List.mem_cons_self kv rest)),
          ← ih (fun e he => hl e (List.mem_cons_of_mem kv he))]
    exact hmap content hall

theorem contentGet_map_mark (content : List (String × CVal)) (id : String) (now : Nat)
    (k : String) :
    contentGet (content.map (fun kv =>
        if kv.1 = id then (kv.1, setSentTrue now kv.2) else kv)) k =
      if k = id then (contentGet content k).map (setSentTrue now)
      else contentGet content k := by
  induction content with
  | nil => by_cases hk : k = id <;> simp [contentGet, hk]
  | cons kv rest ih =>
    obtain ⟨k', v'⟩ := kv
    by_cases h1 : k' = id <;> by_cases h2 : k' = k <;>
      by_cases h3 : k = id <;>
        simp_all [contentGet, List.find?]

theorem contentGet_markOne (content : List (String × CVal)) (id : String) (now : Nat)
    (k : String) :
    contentGet (markOne content id now).1 k =
      if k = id then (contentGet content k).map (setSentTrue now)
      else contentGet content k := by
  rw [markOne_fst]
  exact contentGet_map_mark content id now k

theorem contentGet_marks (ids : List String) (content : List (String × CVal)) (now : Nat)
    (k : String) :
    contentGet (mark_applications_as_sent content ids now).2 k =
      if k ∈ ids then (contentGet content k).map (setSentTrue now)
      else contentGet content k := by
  induction ids generalizing content with
  | nil => simp [mark_applications_as_sent]
  | cons id rest ih =>
    simp only [mark_applications_as_sent]
    rw [ih]
    by_cases h1 : k = id
    · subst h1
      by_cases h2 : k ∈ rest
      · rw [if_pos h2, if_pos (List.mem_cons_self k rest), contentGet_markOne, if_pos rfl]
        cases contentGet content k <;> simp [setSentTrue_idem]
      · rw [if_neg h2, contentGet_markOne, if_pos rfl,
          if_pos (List.mem_cons_self k rest)]
    · by_cases h2 : k ∈ rest
      · rw [if_pos h2, if_pos (List.mem_cons_of_mem id h2), contentGet_markOne, if_neg h1]
      · rw [if_neg h2, contentGet_markOne, if_neg h1, if_neg]
        simp [h1, h2]

theorem pendingIds_mem_iff (l : List (String × CVal)) (k : String) :
    k ∈ pendingIds l ↔ ∃ a, (k, CVal.dict a) ∈ l ∧ a.sent = some false := by
  unfold pendingIds
  rw [List.mem_filterMap]
  constructor
  · rintro ⟨kv, hkv, hf⟩
    obtain ⟨k0, v0⟩ := kv
    cases hv : v0 with
    | dict a =>
      rw [hv] at hf hkv
      dsimp only at hf
      by_cases hs : a.sent = some false
      · rw [if_pos hs] at hf
        injection hf with hf
        subst hf
        exact ⟨a, hkv, hs⟩
      · rw [if_neg hs] at hf
        cases hf
    | nondict =>
      rw [hv] at hf
      dsimp only at hf
      cases hf
  · rintro ⟨a, hmem, hs⟩
    exact ⟨(k, CVal.dict a), hmem, by simp [hs]⟩

theorem pendingIds_markOne_sub (content : List (String × CVal)) (id : String) (now : Nat)
    (k : String) (hk : k ∈ pendingIds (markOne content id now).1) :
    k ∈ pendingIds content ∧ k ≠ id := by
  rw [markOne_fst] at hk
  obtain ⟨a, hmem, hs⟩ := (pendingIds_mem_iff _ k).mp hk
  obtain ⟨kv, hkv, hf⟩ := List.mem_map.mp hmem
  by_cases h1 : kv.1 = id
  · rw [if_pos h1] at hf
    obtain ⟨-, hv1⟩ := Prod.mk.inj hf
    exfalso
    cases hv : kv.2 with
    | dict b =>
      rw [hv] at hv1
      have h2 : CVal.dict { b with sent := some true, timestamp := some now } =
          CVal.dict a := hv1
      injection h2 with h2
      rw [← h2] at hs
      simp at hs
    | nondict =>
      rw [hv] at hv1
      exact absurd hv1 (by simp [setSentTrue])
  · rw [if_neg h1] at hf
    have hk1 : kv.1 = k := by rw [hf]
    refine ⟨(pendingIds_mem_iff content k).mpr ⟨a, ?_, hs⟩, ?_⟩
    · rw [← hf]
      exact hkv
    · intro he
      exact h1 (by rw [hk1, he])

theorem pendingIds_after_marks (ids : List String) (content : List (String × CVal))
    (now : Nat) (h : ∀ k ∈ pendingIds content, k ∈ ids) :
    pendingIds (mark_applications_as_sent content ids now).2 = [] := by
  induction ids generalizing content with
  | nil =>
    simp only [mark_applications_as_sent]
    exact List.eq_nil_iff_forall_not_mem.mpr fun k hk => absurd (h k hk) (List.not_mem_nil k)
  | cons id rest ih =>
    simp only [mark_applications_as_sent]
    refine ih (markOne content id now).1 ?_
    intro k hk
    obtain ⟨hmem, hne⟩ := pendingIds_markOne_sub content id now k hk
    rcases List.mem_cons.mp (h k hmem) with hh | ht
    · exact absurd hh hne
    · exact ht

/-! ## C8 — submit-all is idempotent w.r.t. publishing -/

theorem submit_all_ok_no_pending (cfg : AppliersConfig) (doc : UserDoc) (now : Nat)
    (r : String × Nat × List PubMsg × UserDoc)
    (h : submit_all_applications cfg (some doc) now = Except.ok r) :
    pendingIds r.2.2.2.content = [] := by
  unfold submit_all_applications at h
  dsimp only at h
  by_cases hp : (pendingIds doc.content).isEmpty
  · rw [if_pos hp] at h
    injection h with h
    rw [← h]
    exact List.isEmpty_iff.mp hp
  · rw [if_neg hp] at h
    injection h with h
    rw [← h]
    exact pendingIds_after_marks (pendingIds doc.content) doc.content now (fun k hk => hk)

/-- C8: a successful submit-all leaves no pending application, so an
immediately repeated submit-all publishes zero messages and reports zero
submitted applications. -/
theorem c8_submit_all_idempotent (cfg : AppliersConfig) (doc : UserDoc)
    (now now2 : Nat) (msg : String) (cnt : Nat) (pubs : List PubMsg) (doc2 : UserDoc)
    (h : submit_all_applications cfg (some doc) now = Except.ok (msg, cnt, pubs, doc2)) :
    submit_all_applications cfg (some doc2) now2 =
      Except.ok ("No pending applications to submit", 0, [], doc2) := by
  have hnp : pendingIds doc2.content = [] :=
    submit_all_ok_no_pending cfg doc now (msg, cnt, pubs, doc2) h
  unfold submit_all_applications
  dsimp only
  rw [if_pos (by rw [hnp]; rfl)]

/-- An unsent provider-portal application used for the C8 witness. -/
def c8doc : UserDoc :=
  UserDoc.mk "7" [("A", CVal.dict (AppData.mk (some "workday") (some false) none))]

/-- The C8 document after the first submit-all. -/
def c8doc2 : UserDoc :=
  UserDoc.mk "7" [("A", CVal.dict (AppData.mk (some "workday") (some true) (some 3)))]

/-- C8 witness: a concrete first run followed by a zero-publish second run. -/
theorem c8_submit_all_idempotent_witness :
    submit_all_applications (AppliersConfig.mk true true) (some c8doc2) 4 =
      Except.ok ("No pending applications to submit", 0, [], c8doc2) :=
  c8_submit_all_idempotent (AppliersConfig.mk true true) c8doc 3 4
    "Career documents processed successfully" 1
    [PubMsg.mk "providers_queue" "7" "A"
      (CVal.dict (AppData.mk (some "workday") (some false) none))]
    c8doc2 rfl

/-! ## C5 — applications routed to a disabled target -/

/-- C5 as the spec states it: with the application's routing target disabled,
submit-all drops its message AND leaves its `sent` flag false. -/
def c5ClaimStatement : Prop :=
  ∀ (cfg : AppliersConfig) (doc : UserDoc) (k : String) (a : AppData) (now : Nat)
    (msg : String) (cnt : Nat) (pubs : List PubMsg) (doc2 : UserDoc),
    (k, CVal.dict a) ∈ doc.content → a.sent = some false →
    (∀ ap ∈ appliersList cfg, ap.keeps (CVal.dict a) = false) →
    submit_all_applications cfg (some doc) now = Except.ok (msg, cnt, pubs, doc2) →
    (∀ m ∈ pubs, m.app_id ≠ k) ∧
    (∃ a2, contentGet doc2.content k = some (CVal.dict a2) ∧ a2.sent = some false)

/-- The skyvern-routed unsent application of spec scenario 5. -/
def c5app : AppData := AppData.mk (some "custom") (some false) none

/-- C5 scenario input: one unsent application on a non-provider portal. -/
def c5docIn : UserDoc := UserDoc.mk "42" [("B", CVal.dict c5app)]

/-- The same document after submit-all with skyvern disabled. -/
def c5docOut : UserDoc :=
  UserDoc.mk "42" [("B", CVal.dict (AppData.mk (some "custom") (some true) (some 7)))]

theorem c5_providers_only_drops (ap : Applier)
    (hap : ap ∈ appliersList (AppliersConfig.mk false true)) :
    ap.keeps (CVal.dict c5app) = false := by
  rw [show appliersList (AppliersConfig.mk false true) =
      [Applier.mk "providers_queue" providersKeeps] from rfl] at hap
  rw [List.mem_singleton] at hap
  subst hap
  decide

/-- C5 counterexample: with skyvern disabled, submit-all drops application
`B`'s message but still flips its `sent` flag to true. -/
theorem c5_counterexample : ¬ c5ClaimStatement := by
  intro h
  obtain ⟨-, a2, hget, hsent⟩ :=
    h (AppliersConfig.mk false true) c5docIn "B" c5app 7
      "Career documents processed successfully" 1 [] c5docOut
      (by decide) rfl c5_providers_only_drops rfl
  rw [show contentGet c5docOut.content "B" =
      some (CVal.dict (AppData.mk (some "custom") (some true) (some 7))) from rfl] at hget
  injection hget with hget
  injection hget with hget
  rw [← hget] at hsent
  simp at hsent

/-- C5 amended: an application whose routing target is disabled gets no
published message (silently), yet submit-all and submit-selected still flip
its `sent` flag to true and stamp `timestamp`. -/
theorem c5_disabled_target_still_marked (cfg : AppliersConfig) (doc : UserDoc)
    (k : String) (a : AppData) (now : Nat)
    (hnd : (doc.content.map Prod.fst).Nodup)
    (hmem : (k, CVal.dict a) ∈ doc.content)
    (hdrop : ∀ ap ∈ appliersList cfg, ap.keeps (CVal.dict a) = false)
    (hs : a.sent = some false) :
    (∃ msg cnt pubs doc2,
      submit_all_applications cfg (some doc) now = Except.ok (msg, cnt, pubs, doc2) ∧
      (∀ m ∈ pubs, m.app_id ≠ k) ∧
      contentGet doc2.content k =
        some (CVal.dict { a with sent := some true, timestamp := some now }))
    ∧ (∃ msg2 cnt2 doc3,
      submit_selected_applications cfg (some doc) [k] now =
        Except.ok (msg2, cnt2, [], doc3) ∧
      contentGet doc3.content k =
        some (CVal.dict { a with sent := some true, timestamp := some now })) := by
  have hpend : k ∈ pendingIds doc.content := mem_pendingIds doc.content k a hmem hs
  have hget : contentGet doc.content k = some (CVal.dict a) :=
    contentGet_of_mem_nodup doc.content hnd k (CVal.dict a) hmem
  have hmark : contentGet
      (mark_applications_as_sent doc.content (pendingIds doc.content) now).2 k =
      some (CVal.dict { a with sent := some true, timestamp := some now }) := by
    rw [contentGet_marks, if_pos hpend, hget]
    rfl
  have hne : ¬(pendingIds doc.content).isEmpty = true := by
    cases hp : pendingIds doc.content with
    | nil => rw [hp] at hpend; cases hpend
    | cons x xs => simp [hp]
  constructor
  · refine ⟨"Career documents processed successfully",
      (mark_applications_as_sent doc.content (pendingIds doc.content) now).1,
      publish_data_to_microservices cfg doc.user_id doc.content,
      UserDoc.mk doc.user_id
        (mark_applications_as_sent doc.content (pendingIds doc.content) now).2, ?_, ?_, ?_⟩
    · unfold submit_all_applications
      dsimp only
      rw [if_neg hne]
    · intro m hm he
      obtain ⟨kv, hkv, hmone⟩ := (mem_publish_iff cfg doc.user_id doc.content m).mp hm
      obtain ⟨k1, v1⟩ := kv
      have hid := mem_publishOne_app_id cfg doc.user_id k1 v1 m hmone
      have hk1 : k1 = k := by rw [← hid, he]
      have hveq : v1 = CVal.dict a := by
        refine key_unique doc.content hnd k v1 (CVal.dict a) ?_ hmem
        rw [← hk1]
        exact hkv
      rw [hveq] at hmone
      rw [publishOne_nil cfg doc.user_id k1 (CVal.dict a) hdrop] at hmone
      cases hmone
    · exact hmark
  · have hone : selectedFilter doc.content k = some (k, CVal.dict a) := by
      unfold selectedFilter
      rw [hget]
      dsimp only
      rw [if_pos hs]
    have hfil : [k].filterMap (selectedFilter doc.content) = [(k, CVal.dict a)] := by
      rw [List.filterMap_cons, List.filterMap_nil, hone]
    refine ⟨"Selected applications processed successfully",
      (mark_applications_as_sent doc.content [k] now).1,
      UserDoc.mk doc.user_id (mark_applications_as_sent doc.content [k] now).2, ?_, ?_⟩
    · unfold submit_selected_applications
      dsimp only
      rw [hfil]
      rw [if_neg (by simp)]
      have hpub : publish_data_to_microservices cfg doc.user_id [(k, CVal.dict a)] = [] := by
        simp only [publish_data_to_microservices]
        rw [publishOne_nil cfg doc.user_id k (CVal.dict a) hdrop]
        rfl
      rw [hpub]
      rfl
    · rw [contentGet_marks, if_pos (List.mem_singleton_self k), hget]
      rfl

/-- C5 witness for the amended theorem: the concrete scenario-5 input with
skyvern disabled. -/
theorem c5_disabled_target_still_marked_witness :
    (∃ msg cnt pubs doc2,
      submit_all_applications (AppliersConfig.mk false true) (some c5docIn) 7 =
        Except.ok (msg, cnt, pubs, doc2) ∧
      (∀ m ∈ pubs, m.app_id ≠ "B") ∧
      contentGet doc2.content "B" =
        some (CVal.dict { c5app with sent := some true, timestamp := some 7 }))
    ∧ (∃ msg2 cnt2 doc3,
      submit_selected_applications (AppliersConfig.mk false true) (some c5docIn) ["B"] 7 =
        Except.ok (msg2, cnt2, [], doc3) ∧
      contentGet doc3.content "B" =
        some (CVal.dict { c5app with sent := some true, timestamp := some 7 })) :=
  c5_disabled_target_still_marked (AppliersConfig.mk false true) c5docIn "B" c5app 7
    (by decide) (by decide) c5_providers_only_drops rfl

/-! ## Consumer-side helper lemmas -/

theorem refill_queue_redis (st : CoreState) : (refill_queue st).1.redis = st.redis := by
  unfold refill_queue
  by_cases h : st.queueSize < MAX_QUEUE_SIZE
  · rw [if_pos h]
    rcases hr : retrieve_one_batch_from_db st.batches with ⟨b, o⟩
    cases o <;> rfl
  · rw [if_neg h]

theorem retrieve_content_missing (msg : Message) (store : List (String × JobDict))
    (hdict : ∀ kv ∈ msg, kv.1 ∉ excludedKeys → ∃ d, kv.2 = MVal.vdict d)
    (hmiss : ∃ kv ∈ msg, kv.1 ∉ excludedKeys ∧ redisGet store kv.1 = none) :
    retrieve_content_from_redis msg store =
      Except.error (PyError.invalidRequest
        "Invalid correlation ID in response from career_docs") := by
  induction msg with
  | nil =>
    obtain ⟨kv, hkv, -⟩ := hmiss
    cases hkv
  | cons kv rest ih =>
    obtain ⟨k, v⟩ := kv
    by_cases hex : k ∈ excludedKeys
    · unfold retrieve_content_from_redis
      rw [if_pos hex]
      refine ih (fun e he hx => hdict e (List.mem_cons_of_mem _ he) hx) ?_
      obtain ⟨e, he, hx, hn⟩ := hmiss
      rcases List.mem_cons.mp he with rfl | ht
      · exact absurd hex hx
      · exact ⟨e, ht, hx, hn⟩
    · unfold retrieve_content_from_redis
      rw [if_neg hex]
      cases hg : redisGet store k with
      | none => rfl
      | some orig =>
        obtain ⟨d, hd⟩ := hdict (k, v) (List.mem_cons_self _ _) hex
        dsimp only at hd
        subst hd
        dsimp only
        rw [ih (fun e he hx => hdict e (List.mem_cons_of_mem _ he) hx) ?_]
        obtain ⟨e, he, hx, hn⟩ := hmiss
        rcases List.mem_cons.mp he with rfl | ht
        · dsimp only at hn
          rw [hg] at hn
          cases hn
        · exact ⟨e, ht, hx, hn⟩

/-! ## C3 — correlation ids are not released on success -/

/-- C3 as the spec states it: after an error-free run of the response
consumer, the correlation store no longer contains any of the processed
message's correlation ids. -/
def c3ClaimStatement : Prop :=
  ∀ (msg : Message) (st st2 : CoreState),
    process_message msg st = (st2, none) →
    ∀ kv ∈ msg, kv.1 ∉ excludedKeys → redisGet st2.redis kv.1 = none

/-- A success outcome for user 42 carrying application `C1`.  It has no
`mongo_id` key, so `process_message` skips `_remove_processed_entry` (whose
`logger.log` call would raise `TypeError`) and completes without error. -/
def c3msg : Message :=
  [("user_id", MVal.vnum 42), ("C1", MVal.vdict [("resume_optimized", "r1")])]

/-- State holding the `C1` snapshot in the correlation store; the only batch
is already `sent=true`, so the final refill claims nothing and returns
cleanly. -/
def c3state : CoreState :=
  CoreState.mk [("C1", [("portal", "workday"), ("title", "SRE")])] []
    [BatchDoc.mk "B1" 42 (JobsField.items [JobItem.good [("portal", "workday")]])
      true 2 false none] 0

/-- C3 counterexample: the consumer finishes the success outcome without
error, yet `C1` is still present in the correlation store. -/
theorem c3_counterexample : ¬ c3ClaimStatement := by
  intro h
  have hrun : process_message c3msg c3state = ((process_message c3msg c3state).1, none) := by
    decide
  have h2 := h c3msg c3state (process_message c3msg c3state).1 hrun
    ("C1", MVal.vdict [("resume_optimized", "r1")]) (by decide) (by decide)
  exact absurd h2 (by decide)

/-- C3 amended: the response consumer never writes to or deletes from the
correlation store — after any run (error or not), the store is exactly what
it was, so a processed batch's correlation ids all remain present. -/
theorem c3_store_never_released (msg : Message) (st : CoreState) :
    (process_message msg st).1.redis = st.redis := by
  unfold process_message
  cases hu : extractUserId msg with
  | none => rfl
  | some uid =>
    dsimp only
    cases hr : retrieve_content_from_redis msg st.redis with
    | error e => rfl
    | ok content =>
      dsimp only
      cases hw : update_career_docs_responses uid content st.responses with
      | error e => rfl
      | ok responses2 =>
        dsimp only
        cases hm : msgGet msg "mongo_id" with
        | none => exact refill_queue_redis _
        | some v => rfl

/-! ## C4 — a missing correlation id fails the whole outcome -/

/-- C4 as the spec states it: a missing correlation id is skipped with a
per-application error, and every application whose id resolves is still
persisted under the user's `career_docs_responses` document. -/
def c4ClaimStatement : Prop :=
  ∀ (msg : Message) (st : CoreState) (uid : Nat),
    extractUserId msg = some uid →
    (∀ kv ∈ msg, kv.1 ∉ excludedKeys → ∃ d, kv.2 = MVal.vdict d) →
    ∀ kv ∈ msg, kv.1 ∉ excludedKeys → redisGet st.redis kv.1 ≠ none →
      ∃ doc, (process_message msg st).1.responses.find?
          (fun d => d.user_id = uid) = some doc ∧
        doc.content.any (fun e => e.1 = kv.1) = true

/-- Success outcome naming `C1` (resolvable) and `C2` (missing from CS). -/
def c4msg : Message :=
  [("user_id", MVal.vnum 42), ("C1", MVal.vdict [("a", "1")]),
   ("C2", MVal.vdict [("b", "2")])]

/-- State whose correlation store holds only `C1`. -/
def c4state : CoreState := CoreState.mk [("C1", [("portal", "workday")])] [] [] 0

theorem c4msg_dicts (kv : String × MVal) (hkv : kv ∈ c4msg)
    (hex : kv.1 ∉ excludedKeys) : ∃ d, kv.2 = MVal.vdict d := by
  simp only [c4msg, List.mem_cons, List.not_mem_nil, or_false] at hkv
  rcases hkv with rfl | rfl | rfl
  · exact absurd (show ("user_id", MVal.vnum 42).1 ∈ excludedKeys by decide) hex
  · exact ⟨[("a", "1")], rfl⟩
  · exact ⟨[("b", "2")], rfl⟩

/-- C4 counterexample: `C1` resolves, yet nothing at all is persisted — the
consumer aborts on the missing `C2` before any write. -/
theorem c4_counterexample : ¬ c4ClaimStatement := by
  intro h
  obtain ⟨doc, hdoc, -⟩ :=
    h c4msg c4state 42 rfl c4msg_dicts ("C1", MVal.vdict [("a", "1")])
      (by decide) (by decide) (by decide)
  rw [show (process_message c4msg c4state).1.responses = ([] : List RespDoc) from rfl] at hdoc
  cases hdoc

/-- C4 amended: when any correlation id of the outcome is missing from the
correlation store, `process_message` raises `InvalidRequestError` and aborts
the whole message before any write: the state is completely unchanged (no
application persisted, batch neither retired nor restored, no refill). -/
theorem c4_missing_correlation_aborts (msg : Message) (st : CoreState) (uid : Nat)
    (huid : extractUserId msg = some uid)
    (hdict : ∀ kv ∈ msg, kv.1 ∉ excludedKeys → ∃ d, kv.2 = MVal.vdict d)
    (hmiss : ∃ kv ∈ msg, kv.1 ∉ excludedKeys ∧ redisGet st.redis kv.1 = none) :
    process_message msg st =
      (st, some (PyError.invalidRequest
        "Invalid correlation ID in response from career_docs")) := by
  unfold process_message
  rw [huid]
  dsimp only
  rw [retrieve_content_missing msg st.redis hdict hmiss]

/-- C4 witness: the amended theorem at the concrete `C1`/`C2` scenario. -/
theorem c4_missing_correlation_aborts_witness :
    process_message c4msg c4state =
      (c4state, some (PyError.invalidRequest
        "Invalid correlation ID in response from career_docs")) :=
  c4_missing_correlation_aborts c4msg c4state 42 rfl c4msg_dicts
    ⟨("C2", MVal.vdict [("b", "2")]), by decide, by decide, by decide⟩

/-! ## C1 — failure outcomes: restore/permanent-fail never happens -/

/-- The in-flight batch `abc` with retries remaining. -/
def c1batch : BatchDoc :=
  BatchDoc.mk "abc" 42 (JobsField.items [JobItem.good [("title", "SRE")]]) true 2 false none

/-- Consumer state holding only the in-flight batch; correlation store empty
of the literal key `success`. -/
def c1state : CoreState := CoreState.mk [] [] [c1batch] 0

/-- A CareerDocs failure outcome, as specified:
`{success: false, user_id, mongo_id}`. -/
def c1msg : Message :=
  [("success", MVal.vbool false), ("user_id", MVal.vnum 123), ("mongo_id", MVal.vstr "abc")]

/-- C1: `DatabaseWriter.restore_sent` alone implements exactly the claimed
transitions (restore `sent=false` while `retries_left > 0`, else
`status=failed, failed_at=now`), but `process_message` never consults the
`success` field and never calls it: on a failure outcome it treats the
literal key `success` as a correlation id, raises `InvalidRequestError`, and
leaves the batch `sent=true`, unrestored and unfailed. -/
theorem c1_failure_outcome_mishandled :
    process_message c1msg c1state =
      (c1state, some (PyError.invalidRequest
        "Invalid correlation ID in response from career_docs"))
    ∧ restore_sent "abc" [c1batch] 5 = [{ c1batch with sent := false }]
    ∧ restore_sent "xyz"
        [BatchDoc.mk "xyz" 42 (JobsField.items [JobItem.good [("title", "SRE")]])
          true 0 false none] 5 =
      [BatchDoc.mk "xyz" 42 (JobsField.items [JobItem.good [("title", "SRE")]])
        true 0 true (some 5)] := by
  refine ⟨rfl, ?_, ?_⟩ <;> decide

/-! ## C7 — refill back-pressure and the claim/publish loop -/

/-- A claimable, structurally valid batch for the C7 failing input. -/
def c7batch : BatchDoc :=
  BatchDoc.mk "b7" 42 (JobsField.items [JobItem.good [("portal", "workday")]]) false 3 false none

/-- State with an empty CareerDocs queue and one claimable batch. -/
def c7state : CoreState := CoreState.mk [] [] [c7batch] 0

/-- C7: when the observed queue depth is at or above `MAX_QUEUE_SIZE`,
`refill_queue` publishes nothing and claims nothing (the state is returned
untouched).  But below the threshold, the first claimed batch kills the
loop: `retrieve_one_batch_from_db` hands back a `(user_id, jobs)` tuple,
`publish_applications` dereferences `.style` on it and raises
`AttributeError` — the batch is left `sent=true` and nothing was
published. -/
theorem c7_refill_backpressure :
    (∀ st : CoreState, MAX_QUEUE_SIZE ≤ st.queueSize → refill_queue st = (st, none))
    ∧ refill_queue c7state =
      ({ c7state with batches := [{ c7batch with sent := true }] },
        some PyError.attributeError) := by
  constructor
  · intro st h
    unfold refill_queue
    rw [if_neg (Nat.not_lt.mpr h)]
  · decide

/-- C7 witness: a full queue (depth 100 = `MAX_QUEUE_SIZE`) with a claimable
batch — refill changes nothing. -/
theorem c7_refill_backpressure_witness :
    refill_queue (CoreState.mk [] [] [c7batch] 100) =
      (CoreState.mk [] [] [c7batch] 100, none) :=
  c7_refill_backpressure.1 (CoreState.mk [] [] [c7batch] 100) (by decide)

end ARS
